import Mathlib

/-!
Verification development for the VHDL scoreboard core (semantic-analysis
front-end): a shallow embedding of `src/vhdl/score/mod.rs` and
`src/vhdl/builtin.rs`, with theorems settling the specification claims about
memoization, name resolution, the architecture indexer, and the builtin
environment.
-/

namespace Moore

/-- Interned identifier names (`Name`), modelled by their string spelling. -/
abbrev Name := String

/-- Source spans, modelled by the source text they cover (`Span::extract`). -/
abbrev Span := String

/-- The invalid span attached to builtin definitions (`INVALID_SPAN`). -/
def invalidSpan : Span := ""

/-- A value paired with a source span (`Spanned<T>`). -/
structure Spanned (α : Type) where
  value : α
  span : Span
  deriving DecidableEq

/-- A library handle (`LibRef`). -/
structure LibRef where
  id : Nat
  deriving DecidableEq

/-- An entity handle (`EntityRef`). -/
structure EntityRef where
  id : Nat
  deriving DecidableEq

/-- An architecture handle (`ArchRef`). -/
structure ArchRef where
  id : Nat
  deriving DecidableEq

/-- A configuration handle (`CfgRef`). -/
structure CfgRef where
  id : Nat
  deriving DecidableEq

/-- A context declaration handle (`CtxRef`). -/
structure CtxRef where
  id : Nat
  deriving DecidableEq

/-- A context-items handle (`CtxItemsRef`). -/
structure CtxItemsRef where
  id : Nat
  deriving DecidableEq

/-- A package declaration handle (`PkgDeclRef`). -/
structure PkgDeclRef where
  id : Nat
  deriving DecidableEq

/-- A package body handle (`PkgBodyRef`). -/
structure PkgBodyRef where
  id : Nat
  deriving DecidableEq

/-- A package instance handle (`PkgInstRef`). -/
structure PkgInstRef where
  id : Nat
  deriving DecidableEq

/-- A builtin package handle (`BuiltinPkgRef`). -/
structure BuiltinPkgRef where
  id : Nat
  deriving DecidableEq

/-- A type declaration handle (`TypeDeclRef`). -/
structure TypeDeclRef where
  id : Nat
  deriving DecidableEq

/-- A subtype declaration handle (`SubtypeDeclRef`). -/
structure SubtypeDeclRef where
  id : Nat
  deriving DecidableEq

/-- A constant declaration handle (`ConstDeclRef`). -/
structure ConstDeclRef where
  id : Nat
  deriving DecidableEq

/-- A signal declaration handle (`SignalDeclRef`). -/
structure SignalDeclRef where
  id : Nat
  deriving DecidableEq

/-- A variable declaration handle (`VarDeclRef`). -/
structure VarDeclRef where
  id : Nat
  deriving DecidableEq

/-- A shared variable declaration handle (`SharedVarDeclRef`). -/
structure SharedVarDeclRef where
  id : Nat
  deriving DecidableEq

/-- A file declaration handle (`FileDeclRef`). -/
structure FileDeclRef where
  id : Nat
  deriving DecidableEq

/-- A process statement handle (`ProcessStmtRef`). -/
structure ProcessStmtRef where
  id : Nat
  deriving DecidableEq

/-- An interface signal handle (`IntfSignalRef`). -/
structure IntfSignalRef where
  id : Nat
  deriving DecidableEq

/-- A builtin operator handle (`BuiltinOpRef`). -/
structure BuiltinOpRef where
  id : Nat
  deriving DecidableEq

/-- An enumeration literal reference: defining type declaration plus literal
index (`EnumRef`). -/
structure EnumRef where
  decl : TypeDeclRef
  idx : Nat
  deriving DecidableEq

/-- A physical unit reference: defining type declaration plus unit index
(`UnitRef`). -/
structure UnitRef where
  decl : TypeDeclRef
  idx : Nat
  deriving DecidableEq

/-- A signal reference, interface or declared (`SignalRef` group). -/
inductive SignalRef where
  | intf (r : IntfSignalRef)
  | decl (r : SignalDeclRef)
  deriving DecidableEq

/-- What a name can denote (`Def` group; the `unit` and `builtinOp` variants
come from the builtin environment's extension of the group). -/
inductive Def where
  | arch (r : ArchRef)
  | cfg (r : CfgRef)
  | ctx (r : CtxRef)
  | entity (r : EntityRef)
  | lib (r : LibRef)
  | pkg (r : PkgDeclRef)
  | pkgInst (r : PkgInstRef)
  | builtinPkg (r : BuiltinPkgRef)
  | type (r : TypeDeclRef)
  | subtype (r : SubtypeDeclRef)
  | enum (r : EnumRef)
  | const (r : ConstDeclRef)
  | signal (r : SignalRef)
  | file (r : FileDeclRef)
  | var (r : VarDeclRef)
  | sharedVar (r : SharedVarDeclRef)
  | unit (r : UnitRef)
  | builtinOp (r : BuiltinOpRef)
  deriving DecidableEq

/-- Anything that contributes a scope (`ScopeRef` group). -/
inductive ScopeRef where
  | lib (r : LibRef)
  | ctxItems (r : CtxItemsRef)
  | entity (r : EntityRef)
  | builtinPkg (r : BuiltinPkgRef)
  | pkg (r : PkgDeclRef)
  | pkgInst (r : PkgInstRef)
  | arch (r : ArchRef)
  | process (r : ProcessStmtRef)
  deriving DecidableEq

/-- Logical operators (`ast::LogicalOp`). -/
inductive LogicalOp where
  | and | or | nand | nor | xor | xnor
  deriving DecidableEq

/-- Relational operators (`ast::RelationalOp`). -/
inductive RelationalOp where
  | eq | neq | lt | leq | gt | geq
  deriving DecidableEq

/-- Shift operators (`ast::ShiftOp`). -/
inductive ShiftOp where
  | sll | srl | sla | sra | rol | ror
  deriving DecidableEq

/-- An operator as defined in IEEE 1076-2008 section 9.2 (`Operator`). -/
inductive Operator where
  | logical (op : LogicalOp)
  | rel (op : RelationalOp)
  | matchRel (op : RelationalOp)
  | shift (op : ShiftOp)
  | add
  | sub
  | concat
  | mul
  | div
  | mod
  | rem
  | pow
  | abs
  | not
  deriving DecidableEq

/-- The display spelling of an operator, mirroring `impl Display for Operator`. -/
def Operator.display : Operator → String
  | .logical .and => "and"
  | .logical .or => "or"
  | .logical .nand => "nand"
  | .logical .nor => "nor"
  | .logical .xor => "xor"
  | .logical .xnor => "xnor"
  | .rel .eq => "="
  | .rel .neq => "/="
  | .rel .lt => "<"
  | .rel .leq => "<="
  | .rel .gt => ">"
  | .rel .geq => ">="
  | .matchRel .eq => "?="
  | .matchRel .neq => "?/="
  | .matchRel .lt => "?<"
  | .matchRel .leq => "?<="
  | .matchRel .gt => "?>"
  | .matchRel .geq => "?>="
  | .shift .sll => "sll"
  | .shift .srl => "srl"
  | .shift .sla => "sla"
  | .shift .sra => "sra"
  | .shift .rol => "rol"
  | .shift .ror => "ror"
  | .add => "+"
  | .sub => "-"
  | .concat => "&"
  | .mul => "*"
  | .div => "/"
  | .mod => "mod"
  | .rem => "rem"
  | .pow => "**"
  | .abs => "abs"
  | .not => "not"

/-- A name that can be resolved in a scope (`ResolvableName`). -/
inductive ResolvableName where
  | ident (n : Name)
  | bit (c : Char)
  | operator (op : Operator)
  deriving DecidableEq

/-- The display form of a resolvable name, mirroring
`impl Display for ResolvableName`. -/
def ResolvableName.display : ResolvableName → String
  | .ident n => n
  | .bit c => String.mk [c]
  | .operator op => op.display

/-- Association-list lookup, modelling `HashMap::get`. -/
def alGet {K V : Type} [DecidableEq K] (k : K) : List (K × V) → Option V
  | [] => none
  | (k', v') :: rest => if k = k' then some v' else alGet k rest

/-- Association-list insert, modelling `HashMap::insert`: an existing binding
is overwritten in place, a fresh key is appended. -/
def alInsert {K V : Type} [DecidableEq K] (k : K) (v : V) :
    List (K × V) → List (K × V)
  | [] => [(k, v)]
  | (k', v') :: rest =>
    if k = k' then (k, v) :: rest else (k', v') :: alInsert k v rest

/-- Append a value to a key's list entry, creating the entry when absent; this
models `map.entry(k).or_insert_with(Vec::new).push(v)`. -/
def alPush {K V : Type} [DecidableEq K] (k : K) (v : V) :
    List (K × List V) → List (K × List V)
  | [] => [(k, [v])]
  | (k', vs) :: rest =>
    if k = k' then (k', vs ++ [v]) :: rest else (k', vs) :: alPush k v rest

/-- A set of names and definitions (`type Defs = HashMap<ResolvableName,
Vec<Spanned<Def>>>`). -/
abbrev Defs := List (ResolvableName × List (Spanned Def))

/-- Lookup in a `Defs` map (`defs.get(&name)`). -/
def defsGet (d : Defs) (n : ResolvableName) : Option (List (Spanned Def)) :=
  alGet n d

/-- A scope as stored in the scoreboard's `scope_table` (`Scope`): optional
parent, ordered referenced `Defs` holders, and explicitly imported defs. -/
structure Scope where
  parent : Option ScopeRef
  defs : List ScopeRef
  explicit_defs : Defs
  deriving DecidableEq

/-! ## Memoizing accessors (`ScoreContext::defs`, `archs`, `ty`, `scope`,
`const_value`, `lldef`, `lldecl`, `hir`)

Each accessor checks its memo table, runs `make` on a miss, and inserts the
result. `make` is modelled as an oracle that may mutate the state (its
recursive `get` calls) and emit diagnostics; `none` models `Err(())`. -/

/-- One scoreboard memo table together with the emitted diagnostics. -/
structure MemoSt (K V : Type) where
  table : List (K × V)
  diags : List String
  deriving DecidableEq

/-- The outcome of an accessor: a produced value, a recoverable failure
(`Err(())`), or the fatal `panic!("node should not exist")` that signals a
memo-table clobber (the `ScoreboardInvariant` bug). -/
inductive Outcome (V : Type) where
  | ok (v : V)
  | err
  | fatal
  deriving DecidableEq

/-- A `make` operation: computes a product from a key, possibly mutating the
state through recursive requests, returning `none` on failure. -/
abbrev Make (K V : Type) := K → MemoSt K V → MemoSt K V × Option V

/-- Insert that refuses to clobber: `if table.insert(k, v).is_some() then
panic`. Returns `none` exactly when an entry for `k` is already present. -/
def checkedInsert {K V : Type} [DecidableEq K] (k : K) (v : V)
    (t : List (K × V)) : Option (List (K × V)) :=
  match alGet k t with
  | some _ => none
  | none => some (alInsert k v t)

/-- The memoizing accessor shared by `defs`, `archs`, `ty`, `scope`,
`const_value` and `lldef`: cached value if present, else `make`, then a
clobber-checked insert. -/
def getMemo {K V : Type} [DecidableEq K] (make : Make K V) (k : K)
    (st : MemoSt K V) : MemoSt K V × Outcome V :=
  match alGet k st.table with
  | some v => (st, .ok v)
  | none =>
    match make k st with
    | (st', none) => (st', .err)
    | (st', some v) =>
      match checkedInsert k v st'.table with
      | none => (st', .fatal)
      | some t' => ({ st' with table := t' }, .ok v)

/-- The `hir` accessor: like `getMemo` but the fill goes through `set_hir`,
whose `NodeStorage::set` overwrites without a clobber check. -/
def hirGet {K V : Type} [DecidableEq K] (make : Make K V) (k : K)
    (st : MemoSt K V) : MemoSt K V × Outcome V :=
  match alGet k st.table with
  | some v => (st, .ok v)
  | none =>
    match make k st with
    | (st', none) => (st', .err)
    | (st', some v) => ({ st' with table := alInsert k v st'.table }, .ok v)

/-- The scoreboard state relevant to the LLHD accessors: the declaration and
definition tables (`lldecl_table`, `lldef_table`) keyed by node id. -/
structure LLSt (V : Type) where
  lldecl_table : List (Nat × V)
  lldef_table : List (Nat × V)
  diags : List String
  deriving DecidableEq

/-- A `make` operation over the LLHD state. -/
abbrev LLMake (V : Type) := Nat → LLSt V → LLSt V × Option V

/-- `ScoreContext::lldecl`: consults the declaration table, then the
definition table, and only on a double miss runs `make` and fills the
declaration table with a clobber-checked insert. -/
def lldeclGet {V : Type} (make : LLMake V) (id : Nat) (st : LLSt V) :
    LLSt V × Outcome V :=
  match alGet id st.lldecl_table with
  | some v => (st, .ok v)
  | none =>
    match alGet id st.lldef_table with
    | some v => (st, .ok v)
    | none =>
      match make id st with
      | (st', none) => (st', .err)
      | (st', some v) =>
        match checkedInsert id v st'.lldecl_table with
        | none => (st', .fatal)
        | some t' => ({ st' with lldecl_table := t' }, .ok v)

/-- `ScoreContext::lldef`: consults only the definition table; on a miss runs
`make` and fills the definition table with a clobber-checked insert. -/
def lldefGet {V : Type} (make : LLMake V) (id : Nat) (st : LLSt V) :
    LLSt V × Outcome V :=
  match alGet id st.lldef_table with
  | some v => (st, .ok v)
  | none =>
    match make id st with
    | (st', none) => (st', .err)
    | (st', some v) =>
      match checkedInsert id v st'.lldef_table with
      | none => (st', .fatal)
      | some t' => ({ st' with lldef_table := t' }, .ok v)

/-! ## Name resolution (`ScoreContext::resolve_name`,
`resolvable_from_primary_name`)

The accessors `self.defs(..)` and `self.scope(..)` that `resolve_name` makes
are abstracted as oracles `gd`/`gs` returning `none` on failure; recursion
into parent scopes is fuelled. -/

/-- The result of `resolve_name`: a nonempty overload list, the `UnknownName`
failure with its emitted diagnostic, a failure of a recursive `defs`/`scope`
request, or fuel exhaustion of the model. -/
inductive RRes where
  | ok (defs : List (Spanned Def))
  | unknown (diag : String)
  | tableFail
  | outOfFuel
  deriving DecidableEq

/-- `found_defs.extend(d)` over each referenced defs holder of a scope, in
order; `none` models the failure of a recursive `self.defs(defs_id)?` call. -/
def collectRefs (gd : ScopeRef → Option Defs) (n : ResolvableName) :
    List ScopeRef → Option (List (Spanned Def))
  | [] => some []
  | id :: rest => do
    let defs ← gd id
    let tail ← collectRefs gd n rest
    pure ((defsGet defs n).getD [] ++ tail)

/-- `ScoreContext::resolve_name`: with `only_defs` set, consult only the
scope's own `Defs` and never escalate; otherwise collect from each referenced
defs holder in order, then from `explicit_defs`, escalate to the parent when
nothing matched, and emit ``...` is not known`` at the root. -/
def resolveName (gd : ScopeRef → Option Defs) (gs : ScopeRef → Option Scope) :
    Nat → Spanned ResolvableName → ScopeRef → Bool → RRes
  | 0, _, _, _ => .outOfFuel
  | fuel + 1, name, scopeId, onlyDefs =>
    let step : Option (List (Spanned Def) × Option ScopeRef) :=
      if onlyDefs then
        (gd scopeId).map fun defs => ((defsGet defs name.value).getD [], none)
      else
        (gs scopeId).bind fun scope =>
          (collectRefs gd name.value scope.defs).map fun fd =>
            (fd ++ (defsGet scope.explicit_defs name.value).getD [],
             scope.parent)
    match step with
    | none => .tableFail
    | some (found, parent) =>
      if found.isEmpty then
        match parent with
        | some pid => resolveName gd gs fuel name pid onlyDefs
        | none => .unknown ("`" ++ name.value.display ++ "` is not known")
      else .ok found

/-- Modelled from the claim C2's words only (not from the source): a variant
of `resolveName` that consults the scope's explicit-defs FIRST, before the
referenced defs holders; compared against `resolveName` to settle the order. -/
def resolveNameExplicitFirst (gd : ScopeRef → Option Defs)
    (gs : ScopeRef → Option Scope) :
    Nat → Spanned ResolvableName → ScopeRef → Bool → RRes
  | 0, _, _, _ => .outOfFuel
  | fuel + 1, name, scopeId, onlyDefs =>
    let step : Option (List (Spanned Def) × Option ScopeRef) :=
      if onlyDefs then
        (gd scopeId).map fun defs => ((defsGet defs name.value).getD [], none)
      else
        (gs scopeId).bind fun scope =>
          (collectRefs gd name.value scope.defs).map fun fd =>
            ((defsGet scope.explicit_defs name.value).getD [] ++ fd,
             scope.parent)
    match step with
    | none => .tableFail
    | some (found, parent) =>
      if found.isEmpty then
        match parent with
        | some pid => resolveNameExplicitFirst gd gs fuel name pid onlyDefs
        | none => .unknown ("`" ++ name.value.display ++ "` is not known")
      else .ok found

/-- The matches contributed by a list of referenced defs holders, as a plain
concatenation in holder order (specification form of `collectRefs`). -/
def refsConcat (gd : ScopeRef → Option Defs) (n : ResolvableName)
    (ids : List ScopeRef) : List (Spanned Def) :=
  ids.foldr
    (fun i acc => ((gd i).bind fun d => defsGet d n).getD [] ++ acc) []

/-- The kind of a primary name in the AST (`ast::PrimaryNameKind`). -/
inductive PrimaryNameKind where
  | ident (n : Name)
  | char (c : Char)
  | string (s : String)
  deriving DecidableEq

/-- A primary name in the AST (`ast::PrimaryName`). -/
structure PrimaryName where
  kind : PrimaryNameKind
  span : Span
  deriving DecidableEq

/-- The fixed table mapping operator string-literal spellings to operators
(the `TBL` in `resolvable_from_primary_name`), in source insertion order. -/
def opTable : List (String × Operator) :=
  [("and", .logical .and),
   ("or", .logical .or),
   ("nand", .logical .nand),
   ("nor", .logical .nor),
   ("xor", .logical .xor),
   ("xnor", .logical .xnor),
   ("=", .rel .eq),
   ("/=", .rel .neq),
   ("<", .rel .lt),
   ("<=", .rel .leq),
   (">", .rel .gt),
   (">=", .rel .geq),
   ("?=", .matchRel .eq),
   ("?/=", .matchRel .neq),
   ("?<", .matchRel .lt),
   ("?<=", .matchRel .leq),
   ("?>", .matchRel .gt),
   ("?>=", .matchRel .geq),
   ("sll", .shift .sll),
   ("srl", .shift .srl),
   ("sla", .shift .sla),
   ("sra", .shift .sra),
   ("rol", .shift .rol),
   ("ror", .shift .ror),
   ("+", .add),
   ("-", .sub),
   ("&", .concat),
   ("*", .mul),
   ("/", .div),
   ("mod", .mod),
   ("rem", .rem),
   ("**", .pow),
   ("abs", .abs),
   ("not", .not)]

/-- `ScoreContext::resolvable_from_primary_name`: identifiers become `Ident`,
characters become `Bit`, string literals are looked up in `opTable`; unknown
spellings fail with the `UnknownOperator` diagnostic. -/
def resolvableFromPrimaryName (p : PrimaryName) :
    Except String (Spanned ResolvableName) :=
  match p.kind with
  | .ident n => .ok ⟨.ident n, p.span⟩
  | .char c => .ok ⟨.bit c, p.span⟩
  | .string s =>
    match alGet s opTable with
    | some op => .ok ⟨.operator op, p.span⟩
    | none => .error ("`" ++ s ++ "` is not a valid operator symbol")

/-! ## Builtin environment (`builtin.rs`)

The process-wide builtin references are freshly allocated handles; they are
modelled by fixed distinct numbers. The `Scope` type of `score/scope.rs` and
the `op.rs` operator conversions are not under `src/` and are modelled from
the spec where noted. -/

/-- `ROOT_SCOPE_REF`: the root scope, a fresh `LibRef` turned into a scope
reference. -/
def rootLibRef : LibRef := ⟨900⟩

/-- The root scope reference. -/
def rootScopeRefM : ScopeRef := .lib rootLibRef

/-- `STD_LIB_REF`: the library `STD`. -/
def stdLibRef : LibRef := ⟨901⟩

/-- `STANDARD_PKG_REF`: the package `STANDARD`. -/
def standardPkgRef : BuiltinPkgRef := ⟨902⟩

/-- `TEXTIO_PKG_REF`: the package `TEXTIO`. -/
def textioPkgRef : BuiltinPkgRef := ⟨903⟩

/-- `ENV_PKG_REF`: the package `ENV`. -/
def envPkgRef : BuiltinPkgRef := ⟨904⟩

/-- A range direction (`Dir`). -/
inductive Dir where
  | to
  | downto
  deriving DecidableEq

/-- An integer type with direction and bounds (`IntTy`); bounds are
arbitrary-precision (`BigInt`). -/
structure IntTy where
  dir : Dir
  low : Int
  high : Int
  deriving DecidableEq

/-- A physical unit: name, absolute scale relative to the primary unit, and
optional `(relative scale, referenced unit index)` tuple (`PhysicalUnit`). -/
structure PhysicalUnit where
  name : Name
  abs : Int
  rel : Option (Int × Nat)
  deriving DecidableEq

/-- A physical type: declaring handle, base integer type, units, and index of
the primary unit (`PhysicalTy`). -/
structure PhysicalTy where
  decl : TypeDeclRef
  base : IntTy
  units : List PhysicalUnit
  primary : Nat
  deriving DecidableEq

/-- `named_unit`: create a named physical unit. -/
def namedUnit (n : Name) (abs : Int) (rel : Option (Int × Nat)) :
    PhysicalUnit :=
  ⟨n, abs, rel⟩

/-- `make_time_type`: the physical type with the eight VHDL time units over a
given base integer type. -/
def makeTimeType (decl : TypeDeclRef) (base : IntTy) : PhysicalTy :=
  { decl := decl
    base := base
    units :=
      [namedUnit "fs" 1 none,
       namedUnit "ps" 1000 (some (1000, 0)),
       namedUnit "ns" 1000000 (some (1000, 1)),
       namedUnit "us" 1000000000 (some (1000, 2)),
       namedUnit "ms" 1000000000000 (some (1000, 3)),
       namedUnit "sec" 1000000000000000 (some (1000, 4)),
       namedUnit "min" 60000000000000000 (some (60, 5)),
       namedUnit "hr" 3600000000000000000 (some (60, 6))]
    primary := 0 }

/-- A type mark: type or subtype declaration (`TypeMarkRef` group). -/
inductive TypeMarkRef where
  | type (r : TypeDeclRef)
  | subtype (r : SubtypeDeclRef)
  deriving DecidableEq

mutual

/-- The VHDL type algebra (`Ty`), as used by the builtin environment. -/
inductive Ty where
  | null
  | named (name : ResolvableName) (mark : TypeMarkRef)
  | enum (decl : TypeDeclRef)
  | int (t : IntTy)
  | unboundedInt
  | physical (t : PhysicalTy)
  | array (indices : List ArrayIndex) (elem : Ty)

/-- An array index: unbounded over an index type, or a constrained range
(`ArrayIndex`). -/
inductive ArrayIndex where
  | unbounded (ty : Ty)
  | constrained (dir : Dir) (lo hi : Int)

end

/-- `i32::min_value()`. -/
def i32min : Int := -(2 ^ 31)

/-- `i32::max_value()`. -/
def i32max : Int := 2 ^ 31 - 1

/-- `i64::min_value()`. -/
def i64min : Int := -(2 ^ 63)

/-- `i64::max_value()`. -/
def i64max : Int := 2 ^ 63 - 1

/-- The handle of the builtin `BOOLEAN` type. -/
def booleanTypeId : TypeDeclRef := ⟨910⟩

/-- The handle of the builtin `BIT` type. -/
def bitTypeId : TypeDeclRef := ⟨911⟩

/-- The handle of the builtin `SEVERITY_LEVEL` type. -/
def severityLevelTypeId : TypeDeclRef := ⟨912⟩

/-- The handle of the builtin `INTEGER` type. -/
def integerTypeId : TypeDeclRef := ⟨913⟩

/-- The handle of the builtin `TIME` type (`TIME_TYPE.id`). -/
def timeTypeId : TypeDeclRef := ⟨914⟩

/-- The second, distinct handle surfaced for `TIME` (`TIME_TYPE_REF`),
referenced by `TIME_VECTOR`'s element type. -/
def timeTypeRef2 : TypeDeclRef := ⟨915⟩

/-- The handle of the builtin `DELAY_LENGTH` type. -/
def delayLengthTypeId : TypeDeclRef := ⟨916⟩

/-- The handle of the builtin `NATURAL` type. -/
def naturalTypeId : TypeDeclRef := ⟨917⟩

/-- The handle of the builtin `POSITIVE` type. -/
def positiveTypeId : TypeDeclRef := ⟨918⟩

/-- The handle of the builtin `BOOLEAN_VECTOR` type. -/
def booleanVectorTypeId : TypeDeclRef := ⟨919⟩

/-- The handle of the builtin `BIT_VECTOR` type. -/
def bitVectorTypeId : TypeDeclRef := ⟨920⟩

/-- The handle of the builtin `INTEGER_VECTOR` type. -/
def integerVectorTypeId : TypeDeclRef := ⟨921⟩

/-- The handle of the builtin `TIME_VECTOR` type. -/
def timeVectorTypeId : TypeDeclRef := ⟨922⟩

/-- The handle of the builtin `FILE_OPEN_KIND` type. -/
def fileOpenKindTypeId : TypeDeclRef := ⟨923⟩

/-- The handle of the builtin `FILE_OPEN_STATUS` type. -/
def fileOpenStatusTypeId : TypeDeclRef := ⟨924⟩

/-- `BuiltinType::named_ty` for a builtin type with the given name and id. -/
def namedBuiltinTy (n : Name) (id : TypeDeclRef) : Ty :=
  .named (.ident n) (.type id)

/-- The `Ty` of the builtin `TIME` type (`TIME_TYPE.ty`): the eight time units
over an `i64`-ranged base integer. -/
def timeTy : PhysicalTy :=
  makeTimeType timeTypeId ⟨.to, i64min, i64max⟩

/-- The `Ty` of the builtin `DELAY_LENGTH` type: time units over a base
integer restricted to `0 .. i64::max`. -/
def delayLengthTy : PhysicalTy :=
  makeTimeType delayLengthTypeId ⟨.to, 0, i64max⟩

/-- `BUILTIN_TYPES`: handle/type pairs added to a session's type table upon
construction, in source order. -/
def builtinTypes : List (TypeDeclRef × Ty) :=
  [(booleanTypeId, .enum booleanTypeId),
   (bitTypeId, .enum bitTypeId),
   (severityLevelTypeId, .enum severityLevelTypeId),
   (integerTypeId, .int ⟨.to, i32min, i32max⟩),
   (timeTypeId, .physical timeTy),
   (delayLengthTypeId, .physical delayLengthTy),
   (naturalTypeId, .int ⟨.to, 0, i32max⟩),
   (positiveTypeId, .int ⟨.to, 1, i32max⟩),
   (booleanVectorTypeId,
    .array [.unbounded (namedBuiltinTy "NATURAL" naturalTypeId)]
      (namedBuiltinTy "BOOLEAN" booleanTypeId)),
   (bitVectorTypeId,
    .array [.unbounded (namedBuiltinTy "NATURAL" naturalTypeId)]
      (namedBuiltinTy "BIT" bitTypeId)),
   (integerVectorTypeId,
    .array [.unbounded (namedBuiltinTy "NATURAL" naturalTypeId)]
      (namedBuiltinTy "INTEGER" integerTypeId)),
   (timeVectorTypeId,
    .array [.unbounded (namedBuiltinTy "NATURAL" naturalTypeId)]
      (namedBuiltinTy "TIME" timeTypeRef2)),
   (fileOpenKindTypeId, .enum fileOpenKindTypeId),
   (fileOpenStatusTypeId, .enum fileOpenStatusTypeId)]

/-- The scope representation used by the builtin environment (modelled from
the spec: `score/scope.rs` is not under `src/`; per §3 a scope has an optional
parent, its own definitions, and imported contributing scopes, matching the
uses in `builtin.rs`). -/
structure BScope where
  parent : Option ScopeRef
  defs : Defs
  imported_scopes : List ScopeRef
  deriving DecidableEq

/-- `define_builtin` / `define_builtin_ident` / `define_builtin_bit`: insert
a single-definition entry for a resolvable name into a scope's defs map. -/
def bscopeDefine (d : Defs) (n : ResolvableName) (df : Def) : Defs :=
  alInsert n [⟨df, invalidSpan⟩] d

/-- `define_builtin_op`: append a `Def::BuiltinOp` with a fresh id to the
entry for an operator name. -/
def bscopeDefineOp (d : Defs) (op : Operator) (id : Nat) : Defs :=
  alPush (ResolvableName.operator op) ⟨Def.builtinOp ⟨id⟩, invalidSpan⟩ d

/-- Register a run of builtin operators with consecutively allocated ids. -/
def registerOps : Nat → List Operator → Defs → Defs
  | _, [], d => d
  | i, op :: rest, d => registerOps (i + 1) rest (bscopeDefineOp d op i)

/-- Modelled from the spec: `op.rs` (the `UnaryOp` list and its conversion
into resolvable operator names) is not under `src/`. Per §4.A the registered
unary operator symbols are `+`, `-`, `abs`, `not` and the six logical
operators; the `??` condition operator has no resolvable-operator
counterpart and no spelling in the operator table, so it contributes no
resolvable registration. Order follows `BUILTIN_UNARY_OPS`. -/
def builtinUnaryOperators : List Operator :=
  [.add, .sub, .abs, .not,
   .logical .and, .logical .or, .logical .nand, .logical .nor,
   .logical .xor, .logical .xnor]

/-- Modelled from the spec: `op.rs` (the `BinaryOp` list and its conversion
into resolvable operator names) is not under `src/`. Per §4.A the registered
binary operator set is the six logical operators, the six relational and six
matching-relational operators, the six shifts, and `+`, `-`, `&`, `*`, `/`,
`mod`, `rem`, `**`. Order follows `BUILTIN_BINARY_OPS`. -/
def builtinBinaryOperators : List Operator :=
  [.logical .and, .logical .or, .logical .nand, .logical .nor,
   .logical .xor, .logical .xnor,
   .rel .eq, .rel .neq, .rel .lt, .rel .leq, .rel .gt, .rel .geq,
   .matchRel .eq, .matchRel .neq, .matchRel .lt, .matchRel .leq,
   .matchRel .gt, .matchRel .geq,
   .shift .sll, .shift .srl, .shift .sla, .shift .sra,
   .shift .rol, .shift .ror,
   .add, .sub, .concat, .mul, .div, .mod, .rem, .pow]

/-- The defs of the root scope: `STD → library STD` plus every predefined
unary and binary operator as a `Def::BuiltinOp` with a fresh id. -/
def rootScopeDefs : Defs :=
  registerOps 100 builtinBinaryOperators
    (registerOps 0 builtinUnaryOperators
      (bscopeDefine [] (.ident "STD") (.lib stdLibRef)))

/-- `ROOT_SCOPE`: definitions equal to `library std; use std.standard.all;`
plus the default operator implementations. -/
def rootScopeB : BScope :=
  { parent := none
    defs := rootScopeDefs
    imported_scopes := [.builtinPkg standardPkgRef] }

/-- `STD_LIB_SCOPE`: the scope of the library `STD`. -/
def stdLibScopeB : BScope :=
  { parent := some rootScopeRefM
    defs :=
      bscopeDefine
        (bscopeDefine
          (bscopeDefine [] (.ident "STANDARD") (.builtinPkg standardPkgRef))
          (.ident "TEXTIO") (.builtinPkg textioPkgRef))
        (.ident "ENV") (.builtinPkg envPkgRef)
    imported_scopes := [] }

/-- The declarations of the package `STANDARD`, in source order. -/
def standardPkgEntries : List (ResolvableName × Def) :=
  [(.ident "BOOLEAN", .type booleanTypeId),
   (.ident "FALSE", .enum ⟨booleanTypeId, 0⟩),
   (.ident "TRUE", .enum ⟨booleanTypeId, 1⟩),
   (.ident "BIT", .type bitTypeId),
   (.bit '0', .enum ⟨bitTypeId, 0⟩),
   (.bit '1', .enum ⟨bitTypeId, 1⟩),
   (.ident "SEVERITY_LEVEL", .type severityLevelTypeId),
   (.ident "NOTE", .enum ⟨severityLevelTypeId, 0⟩),
   (.ident "WARNING", .enum ⟨severityLevelTypeId, 1⟩),
   (.ident "ERROR", .enum ⟨severityLevelTypeId, 2⟩),
   (.ident "FAILURE", .enum ⟨severityLevelTypeId, 3⟩),
   (.ident "INTEGER", .type integerTypeId),
   (.ident "TIME", .type timeTypeId),
   (.ident "fs", .unit ⟨timeTypeId, 0⟩),
   (.ident "ps", .unit ⟨timeTypeId, 1⟩),
   (.ident "ns", .unit ⟨timeTypeId, 2⟩),
   (.ident "us", .unit ⟨timeTypeId, 3⟩),
   (.ident "ms", .unit ⟨timeTypeId, 4⟩),
   (.ident "sec", .unit ⟨timeTypeId, 5⟩),
   (.ident "min", .unit ⟨timeTypeId, 6⟩),
   (.ident "hr", .unit ⟨timeTypeId, 7⟩),
   (.ident "DELAY_LENGTH", .type delayLengthTypeId),
   (.ident "NATURAL", .type naturalTypeId),
   (.ident "POSITIVE", .type positiveTypeId),
   (.ident "BOOLEAN_VECTOR", .type booleanVectorTypeId),
   (.ident "BIT_VECTOR", .type bitVectorTypeId),
   (.ident "INTEGER_VECTOR", .type integerVectorTypeId),
   (.ident "TIME_VECTOR", .type timeVectorTypeId),
   (.ident "FILE_OPEN_KIND", .type fileOpenKindTypeId),
   (.ident "READ_MODE", .enum ⟨fileOpenKindTypeId, 0⟩),
   (.ident "WRITE_MODE", .enum ⟨fileOpenKindTypeId, 1⟩),
   (.ident "APPEND_MODE", .enum ⟨fileOpenKindTypeId, 2⟩),
   (.ident "FILE_OPEN_STATUS", .type fileOpenStatusTypeId),
   (.ident "OPEN_OK", .enum ⟨fileOpenStatusTypeId, 0⟩),
   (.ident "STATUS_ERROR", .enum ⟨fileOpenStatusTypeId, 1⟩),
   (.ident "NAME_ERROR", .enum ⟨fileOpenStatusTypeId, 2⟩),
   (.ident "MODE_ERROR", .enum ⟨fileOpenStatusTypeId, 3⟩)]

/-- The defs map of the package `STANDARD`. -/
def standardPkgDefs : Defs :=
  standardPkgEntries.foldl (fun d p => bscopeDefine d p.1 p.2) []

/-- `STANDARD_PKG_SCOPE`: the scope of the package `STANDARD`. -/
def standardPkgScopeB : BScope :=
  { parent := some (.lib stdLibRef)
    defs := standardPkgDefs
    imported_scopes := [] }

/-- `BUILTIN_SCOPES`: all builtin scopes added to a session's scoreboard upon
construction. -/
def builtinScopes : List (ScopeRef × BScope) :=
  [(rootScopeRefM, rootScopeB),
   (.lib stdLibRef, stdLibScopeB),
   (.builtinPkg standardPkgRef, standardPkgScopeB)]

/-- The per-session scoreboard tables that `register_builtins` touches: the
scope table and the type table (modelled from the spec for the scoreboard
variant holding `scope2_table`, which is not under `src/`). -/
structure SessionSB where
  scope2_table : List (ScopeRef × BScope)
  ty_table : List (TypeDeclRef × Ty)

/-- `register_builtins`: extend the session's scope table with the frozen
builtin scopes and its type table with the frozen builtin types. The function
has no failure channel. -/
def registerBuiltins (sb : SessionSB) : SessionSB :=
  { scope2_table :=
      builtinScopes.foldl (fun t p => alInsert p.1 p.2 t) sb.scope2_table
    ty_table :=
      builtinTypes.foldl (fun t p => alInsert p.1 p.2 t) sb.ty_table }

/-- A fresh session's empty tables. -/
def emptySession : SessionSB := ⟨[], []⟩

/-- The defs oracle presented by the builtin scopes: each builtin scope's own
defs map. -/
def builtinGd : ScopeRef → Option Defs :=
  fun r => (alGet r builtinScopes).map BScope.defs

/-- The scope oracle presented by the builtin scopes: resolution over a
builtin scope consults its imported scopes' defs and then its own defs (the
latter as explicit defs), escalating to its parent. -/
def builtinGs : ScopeRef → Option Scope :=
  fun r => (alGet r builtinScopes).map fun s =>
    ⟨s.parent, s.imported_scopes, s.defs⟩

/-- Whether a name resolves in the root scope to a nonempty overload set
consisting solely of `Def::BuiltinOp` definitions. -/
def resolvesToBuiltinOps (op : Operator) : Bool :=
  match resolveName builtinGd builtinGs 2 ⟨.operator op, invalidSpan⟩
      rootScopeRefM false with
  | .ok l =>
    !l.isEmpty &&
      l.all fun d =>
        match d.value with
        | .builtinOp _ => true
        | _ => false
  | _ => false

/-- Whether the operator `<=` resolves in the root scope to exactly one
definition, a `Def::BuiltinOp`. -/
def leqResolvesUnique : Bool :=
  match resolveName builtinGd builtinGs 2
      ⟨.operator (.rel .leq), invalidSpan⟩ rootScopeRefM false with
  | .ok l =>
    l.length == 1 &&
      l.all fun d =>
        match d.value with
        | .builtinOp _ => true
        | _ => false
  | _ => false

/-! ## Architecture indexer (`NodeMaker<LibRef, &ArchTable>::make`) -/

/-- A part of a compound name (`ast::NamePart`); only its emptiness and
dot-selection shape matter to the indexer. -/
inductive NamePart where
  | select (pn : PrimaryName)
  | other
  deriving DecidableEq

/-- A compound name (`ast::CompoundName`). -/
structure CompoundName where
  primary : PrimaryName
  parts : List NamePart
  deriving DecidableEq

/-- The slice of an `ast::ArchBody` the indexer reads: the target entity name
and the architecture's own name. -/
structure ArchBody where
  target : CompoundName
  name : Spanned Name
  deriving DecidableEq

/-- A table of the architectures associated with an entity
(`EntityArchTable`). -/
structure EntityArchTable where
  ordered : List ArchRef
  by_name : List (Name × ArchRef)
  deriving DecidableEq

/-- A table of the architectures in a library and how they relate to the
entities (`ArchTable`). -/
structure ArchTable where
  by_arch : List (ArchRef × EntityRef)
  by_entity : List (EntityRef × EntityArchTable)
  deriving DecidableEq

/-- The slice of a `hir::Lib` the indexer reads: the entity and architecture
handles of the library. -/
structure LibHir where
  entities : List EntityRef
  archs : List ArchRef
  deriving DecidableEq

/-- The target entity name of an architecture when it is a simple identifier
(no name parts), else `none`. -/
def simpleTargetName (arch : ArchBody) : Option Name :=
  if arch.target.parts = [] then
    match arch.target.primary.kind with
    | .ident n => some n
    | _ => none
  else none

/-- The entity an architecture targets: extract the simple identifier, look it
up in the library's defs, take the last (shadowing) definition, and require it
to be an entity. -/
def targetEntity (defs : Defs) (ast : ArchRef → ArchBody) (a : ArchRef) :
    Option EntityRef :=
  (simpleTargetName (ast a)).bind fun n =>
    (defsGet defs (.ident n)).bind fun es =>
      es.getLast?.bind fun last =>
        match last.value with
        | .entity e => some e
        | _ => none

/-- The diagnostic an architecture provokes in the indexer, if any: invalid
entity name, unknown entity, or non-entity target. -/
def archFailureMsg (defs : Defs) (ast : ArchRef → ArchBody) (a : ArchRef) :
    Option String :=
  match simpleTargetName (ast a) with
  | none =>
    some ("`" ++ (ast a).target.primary.span ++ "` is not a valid entity name")
  | some n =>
    match defsGet defs (.ident n) with
    | none => some ("Unknown entity `" ++ n ++ "`")
    | some es =>
      match es.getLast? with
      | none => none
      | some last =>
        match last.value with
        | .entity _ => none
        | _ => some ("`" ++ n ++ "` is not an entity")

/-- One iteration of the indexer's loop over a library's architectures:
accumulator is `(table so far, diagnostics, had_fails)`; `none` models the
`unwrap` panics (empty overload vector, entity absent from `by_entity`). -/
def archStep (defs : Defs) (ast : ArchRef → ArchBody)
    (acc : ArchTable × List String × Bool) (aRef : ArchRef) :
    Option (ArchTable × List String × Bool) :=
  let (res, diags, hadFails) := acc
  let arch := ast aRef
  match simpleTargetName arch with
  | none =>
    some (res,
      diags ++
        ["`" ++ arch.target.primary.span ++ "` is not a valid entity name"],
      true)
  | some entityName =>
    match defsGet defs (.ident entityName) with
    | none =>
      some (res, diags ++ ["Unknown entity `" ++ entityName ++ "`"], true)
    | some es =>
      match es.getLast? with
      | none => none
      | some last =>
        match last.value with
        | .entity e =>
          match alGet e res.by_entity with
          | none => none
          | some entry =>
            some
              ({ by_entity :=
                   alInsert e
                     { ordered := entry.ordered ++ [aRef]
                       by_name := alInsert arch.name.value aRef entry.by_name }
                     res.by_entity
                 by_arch := alInsert aRef e res.by_arch },
               diags, hadFails)
        | _ =>
          some (res, diags ++ ["`" ++ entityName ++ "` is not an entity"],
            true)

/-- Run the indexer's loop over a list of architectures. -/
def runArchSteps (defs : Defs) (ast : ArchRef → ArchBody) :
    (ArchTable × List String × Bool) → List ArchRef →
    Option (ArchTable × List String × Bool)
  | acc, [] => some acc
  | acc, a :: rest =>
    match archStep defs ast acc a with
    | none => none
    | some acc' => runArchSteps defs ast acc' rest

/-- The initial table: `by_entity` seeded with an empty entry for every
entity in the library's HIR. -/
def initArchTable (lib : LibHir) : ArchTable :=
  { by_arch := []
    by_entity := lib.entities.map fun e => (e, ⟨[], []⟩) }

/-- `NodeMaker<LibRef, &ArchTable>::make`: group a library's architectures by
entity; returns the emitted diagnostics and either the table or the collected
failure; `none` models the `unwrap` panics. -/
def makeArchTable (lib : LibHir) (defs : Defs) (ast : ArchRef → ArchBody) :
    Option (List String × Except Unit ArchTable) :=
  match runArchSteps defs ast (initArchTable lib, [], false) lib.archs with
  | none => none
  | some (res, diags, hadFails) =>
    some (if hadFails then (diags, .error ()) else (diags, .ok res))

/-- The `make` operation for the `archs` accessor, fed into the memoizing
`getMemo`: it appends its diagnostics and yields the table on success. -/
def archMake (lib : LibHir) (defs : Defs) (ast : ArchRef → ArchBody) :
    Make LibRef ArchTable :=
  fun _ st =>
    match makeArchTable lib defs ast with
    | some (diags, .ok t) => (⟨st.table, st.diags ++ diags⟩, some t)
    | some (diags, .error ()) => (⟨st.table, st.diags ++ diags⟩, none)
    | none => (st, none)

/-- A definition with span `"a"`, found through a referenced defs holder in
the order scenario below. -/
def defA : Spanned Def := ⟨.type ⟨1⟩, "a"⟩

/-- A definition with span `"b"`, found through a scope's explicit defs in
the order scenario below. -/
def defB : Spanned Def := ⟨.type ⟨2⟩, "b"⟩

/-- A scope whose only referenced defs holder carries `defA` for name `n` and
whose explicit defs carry `defB` for `n`; exercises the collection order of
`resolve_name`. -/
def scopeC2 : Scope :=
  ⟨none, [.lib ⟨7⟩], [(.ident "n", [defB])]⟩

/-- The defs oracle for the order scenario: holder `lib 7` maps `n` to
`defA`. -/
def gd0 : ScopeRef → Option Defs :=
  fun r => if r = ScopeRef.lib ⟨7⟩ then some [(.ident "n", [defA])] else none

/-- The scope oracle for the order scenario: scope `lib 8` is `scopeC2`. -/
def gs0 : ScopeRef → Option Scope :=
  fun r => if r = ScopeRef.lib ⟨8⟩ then some scopeC2 else none

/-- A scope that references itself as its first defs holder (as the builtin
`STANDARD` package scope does) and adds `defB` for name `x` explicitly. -/
def scopeC7 : Scope :=
  ⟨none, [.lib ⟨7⟩], [(.ident "x", [defB])]⟩

/-- The defs oracle for the self-referencing scope: its own `Defs` map `x` to
`defA`. -/
def gd7 : ScopeRef → Option Defs :=
  fun r => if r = ScopeRef.lib ⟨7⟩ then some [(.ident "x", [defA])] else none

/-- The scope oracle for the self-referencing scope. -/
def gs7 : ScopeRef → Option Scope :=
  fun r => if r = ScopeRef.lib ⟨7⟩ then some scopeC7 else none

/-- The entity of the concrete architecture-indexer scenarios. -/
def entX : EntityRef := ⟨50⟩

/-- First architecture of the duplicate-name scenario. -/
def archA1 : ArchRef := ⟨60⟩

/-- Second architecture of the duplicate-name scenario. -/
def archA2 : ArchRef := ⟨61⟩

/-- A library with one entity and two architectures. -/
def libC4 : LibHir := ⟨[entX], [archA1, archA2]⟩

/-- Both architectures are named `a` and target the entity `e`. -/
def astC4 : ArchRef → ArchBody :=
  fun _ => ⟨⟨⟨.ident "e", "e"⟩, []⟩, ⟨"a", "a"⟩⟩

/-- The library defs of the duplicate-name scenario: `e` is the entity. -/
def defsC4 : Defs := [(.ident "e", [⟨.entity entX, "e"⟩])]

/-- A library with one entity and a single architecture, satisfying the
validity and distinct-name side conditions. -/
def libC4w : LibHir := ⟨[entX], [archA1]⟩

/-- The failing architecture of the unknown-target scenario. -/
def archB : ArchRef := ⟨62⟩

/-- A library with one entity and one architecture whose target is
undeclared. -/
def libC5 : LibHir := ⟨[entX], [archB]⟩

/-- The architecture `a` targets the undeclared identifier `missing`. -/
def astC5 : ArchRef → ArchBody :=
  fun _ => ⟨⟨⟨.ident "missing", "missing"⟩, []⟩, ⟨"a", "a"⟩⟩

/-- The library defs of the unknown-target scenario: empty. -/
def defsC5 : Defs := []

/-! ## Association-list lemmas -/

theorem alGet_alInsert_self {K V : Type} [DecidableEq K] (k : K) (v : V)
    (t : List (K × V)) : alGet k (alInsert k v t) = some v := by
  induction t with
  | nil => simp [alInsert, alGet]
  | cons p rest ih =>
    obtain ⟨k', v'⟩ := p
    by_cases hk : k = k'
    · simp [alInsert, hk, alGet]
    · simp [alInsert, hk, alGet, ih]

theorem alGet_alInsert_ne {K V : Type} [DecidableEq K] {k k' : K}
    (h : k ≠ k') (v : V) (t : List (K × V)) :
    alGet k (alInsert k' v t) = alGet k t := by
  induction t with
  | nil => simp [alInsert, alGet, h]
  | cons p rest ih =>
    obtain ⟨k'', v''⟩ := p
    by_cases hk : k' = k''
    · subst hk
      simp [alInsert, alGet, h]
    · by_cases hk2 : k = k''
      · simp [alInsert, hk, alGet, hk2]
      · simp [alInsert, hk, alGet, hk2, ih]

theorem checkedInsert_some {K V : Type} [DecidableEq K] {k : K} {v : V}
    {t t' : List (K × V)} (h : checkedInsert k v t = some t') :
    alGet k t = none ∧ t' = alInsert k v t := by
  unfold checkedInsert at h
  split at h
  · exact Option.noConfusion h
  · rename_i hnone
    injection h with h1
    exact ⟨hnone, h1.symm⟩

theorem checkedInsert_of_present {K V : Type} [DecidableEq K] {k : K}
    {w : V} {t : List (K × V)} (h : alGet k t = some w) (v : V) :
    checkedInsert k v t = none := by
  unfold checkedInsert
  rw [h]

theorem getMemo_ok_cached {K V : Type} [DecidableEq K] {make : Make K V}
    {k : K} {st st₁ : MemoSt K V} {v : V}
    (h : getMemo make k st = (st₁, .ok v)) :
    alGet k st₁.table = some v := by
  unfold getMemo at h
  split at h
  · rename_i w hw
    injection h with h1 h2
    injection h2 with h3
    subst h1
    subst h3
    exact hw
  · rename_i hnone
    split at h
    · exact absurd (congrArg Prod.snd h) (by simp)
    · rename_i st' u hmk
      split at h
      · exact absurd (congrArg Prod.snd h) (by simp)
      · rename_i t' hins
        injection h with h1 h2
        injection h2 with h3
        subst h1
        subst h3
        obtain ⟨hn, rfl⟩ := checkedInsert_some hins
        exact alGet_alInsert_self k u st'.table

theorem getMemo_cached {K V : Type} [DecidableEq K] (make : Make K V)
    {k : K} {st : MemoSt K V} {v : V} (h : alGet k st.table = some v) :
    getMemo make k st = (st, .ok v) := by
  unfold getMemo
  rw [h]

theorem hirGet_ok_cached {K V : Type} [DecidableEq K] {make : Make K V}
    {k : K} {st st₁ : MemoSt K V} {v : V}
    (h : hirGet make k st = (st₁, .ok v)) :
    alGet k st₁.table = some v := by
  unfold hirGet at h
  split at h
  · rename_i w hw
    injection h with h1 h2
    injection h2 with h3
    subst h1
    subst h3
    exact hw
  · rename_i hnone
    split at h
    · exact absurd (congrArg Prod.snd h) (by simp)
    · rename_i st' u hmk
      injection h with h1 h2
      injection h2 with h3
      subst h1
      subst h3
      exact alGet_alInsert_self k u st'.table

theorem hirGet_cached {K V : Type} [DecidableEq K] (make : Make K V)
    {k : K} {st : MemoSt K V} {v : V} (h : alGet k st.table = some v) :
    hirGet make k st = (st, .ok v) := by
  unfold hirGet
  rw [h]

/-- C1: for every product kind (the panic-checked accessors `defs`, `archs`,
`ty`, `scope`, `const_value`, `lldef`, `lldecl` modelled by `getMemo`, and the
`hir` accessor modelled by `hirGet`) and every key whose first `get` succeeds,
a second `get` returns the same cached result, leaves the state unchanged, and
does not run `make` (the second call's result is independent of the `make`
oracle); and a successful insertion performed after a `make` never replaces an
entry already present — `checkedInsert` succeeds only on an absent key, and
faults (the fatal `ScoreboardInvariant` panic) whenever the key is present. -/
theorem c1_memoization_and_no_clobber {K V : Type} [DecidableEq K]
    (make make₂ makeH makeH₂ : Make K V) (k kh : K)
    (st st₁ sth sth₁ : MemoSt K V) (v vh : V)
    (h : getMemo make k st = (st₁, .ok v))
    (hh : hirGet makeH kh sth = (sth₁, .ok vh)) :
    getMemo make₂ k st₁ = (st₁, .ok v)
    ∧ hirGet makeH₂ kh sth₁ = (sth₁, .ok vh)
    ∧ (∀ (t t' : List (K × V)) (u : V) (k' : K),
        checkedInsert k' u t = some t' → alGet k' t = none)
    ∧ (∀ (t : List (K × V)) (w u : V) (k' : K),
        alGet k' t = some w → checkedInsert k' u t = none) := by
  refine ⟨getMemo_cached make₂ (getMemo_ok_cached h),
    hirGet_cached makeH₂ (hirGet_ok_cached hh), ?_, ?_⟩
  · intro t t' u k' hins
    exact (checkedInsert_some hins).1
  · intro t w u k' hw
    exact checkedInsert_of_present hw u

/-- C1 witness: a concrete first `get` on key 1 fills the table with value 7;
the second `get` (under a different `make`) returns the cached 7 unchanged,
and a checked insert on an occupied key faults. -/
theorem c1_witness :
    getMemo (K := Nat) (V := Nat) (fun _ s => (s, some 9)) 1
        ⟨[(1, 7)], []⟩ = (⟨[(1, 7)], []⟩, .ok 7)
    ∧ hirGet (K := Nat) (V := Nat) (fun _ s => (s, some 9)) 2
        ⟨[(2, 8)], []⟩ = (⟨[(2, 8)], []⟩, .ok 8)
    ∧ alGet (V := Nat) 1 ([] : List (Nat × Nat)) = none
    ∧ checkedInsert (V := Nat) 1 9 [(1, 7)] = none := by
  have h : getMemo (K := Nat) (V := Nat) (fun _ s => (s, some 7)) 1
      ⟨[], []⟩ = (⟨[(1, 7)], []⟩, .ok 7) := by decide
  have hh : hirGet (K := Nat) (V := Nat) (fun _ s => (s, some 8)) 2
      ⟨[], []⟩ = (⟨[(2, 8)], []⟩, .ok 8) := by decide
  have hmain := c1_memoization_and_no_clobber
    (fun _ s => (s, some 7)) (fun _ s => (s, some 9))
    (fun _ s => (s, some 8)) (fun _ s => (s, some 9))
    1 2 ⟨[], []⟩ ⟨[(1, 7)], []⟩ ⟨[], []⟩ ⟨[(2, 8)], []⟩ 7 8 h hh
  refine ⟨hmain.1, hmain.2.1, ?_, hmain.2.2.2 [(1, 7)] 7 9 1 (by decide)⟩
  have := hmain.2.2.1 [] ([(1, 7)]) 7 1 (by decide)
  exact this

/-- C8: when `make` fails for a key (emitting its diagnostics `d` and leaving
the table untouched), the accessor inserts nothing into the memo table and
returns the failure; a subsequent request with the same key re-runs `make`
and re-emits the same diagnostics — error results are never cached. -/
theorem c8_errors_not_cached {K V : Type} [DecidableEq K]
    (make : Make K V) (k : K) (st : MemoSt K V) (d : List String)
    (hgap : alGet k st.table = none)
    (hmk : ∀ s : MemoSt K V, make k s = (⟨s.table, s.diags ++ d⟩, none)) :
    getMemo make k st = (⟨st.table, st.diags ++ d⟩, .err)
    ∧ getMemo make k ⟨st.table, st.diags ++ d⟩ =
        (⟨st.table, st.diags ++ d ++ d⟩, .err) := by
  constructor
  · unfold getMemo
    rw [hgap, hmk st]
  · unfold getMemo
    rw [hgap, hmk ⟨st.table, st.diags ++ d⟩]

/-- C8 witness: a failing `make` that emits one diagnostic, on an empty
table: the first and second requests both fail, both run `make`, the table
stays empty, and the diagnostic is emitted twice. -/
theorem c8_witness :
    getMemo (K := Nat) (V := Nat)
        (fun _ s => (⟨s.table, s.diags ++ ["boom"]⟩, none)) 1 ⟨[], []⟩ =
      (⟨[], ["boom"]⟩, .err)
    ∧ getMemo (K := Nat) (V := Nat)
        (fun _ s => (⟨s.table, s.diags ++ ["boom"]⟩, none)) 1
        ⟨[], ["boom"]⟩ =
      (⟨[], ["boom", "boom"]⟩, .err) := by
  have := c8_errors_not_cached (K := Nat) (V := Nat)
    (fun _ s => (⟨s.table, s.diags ++ ["boom"]⟩, none)) 1 ⟨[], []⟩
    ["boom"] (by decide) (fun s => rfl)
  exact this

/-- C10: `lldecl` consults the declaration table and then the definition
table — when `lldef` has already cached a value for the id, `lldecl` returns
that value without running `make` (any oracle) and without inserting into the
declaration table (state unchanged); the converse does not hold: `lldef`
never consults the declaration table, and runs `make` even when the
declaration table has an entry for the id. -/
theorem c10_lldecl_consults_def_table {V : Type} (make make₂ : LLMake V)
    (id id₂ : Nat) (st st₂ st₃ : LLSt V) (v w u : V) (t' : List (Nat × V))
    (hdecl : alGet id st.lldecl_table = none)
    (hdef : alGet id st.lldef_table = some v)
    (hdecl₂ : alGet id₂ st₂.lldecl_table = some w)
    (hdef₂ : alGet id₂ st₂.lldef_table = none)
    (hmk₂ : make₂ id₂ st₂ = (st₃, some u))
    (hins : checkedInsert id₂ u st₃.lldef_table = some t') :
    lldeclGet make id st = (st, .ok v)
    ∧ lldefGet make₂ id₂ st₂ = ({ st₃ with lldef_table := t' }, .ok u) := by
  constructor
  · unfold lldeclGet
    rw [hdecl, hdef]
  · unfold lldefGet
    simp only [hdef₂, hmk₂, hins]

/-- C10 witness: with value 5 cached in the definition table, `lldecl 1`
returns it untouched; with value 6 cached only in the declaration table,
`lldef 1` ignores it and runs `make`. -/
theorem c10_witness :
    lldeclGet (V := Nat) (fun _ s => (s, some 9)) 1 ⟨[], [(1, 5)], []⟩ =
      (⟨[], [(1, 5)], []⟩, .ok 5)
    ∧ lldefGet (V := Nat) (fun _ s => (s, some 9)) 1 ⟨[(1, 6)], [], []⟩ =
      (⟨[(1, 6)], [(1, 9)], []⟩, .ok 9) := by
  have := c10_lldecl_consults_def_table (V := Nat)
    (fun _ s => (s, some 9)) (fun _ s => (s, some 9)) 1 1
    ⟨[], [(1, 5)], []⟩ ⟨[(1, 6)], [], []⟩ ⟨[(1, 6)], [], []⟩
    5 6 9 [(1, 9)] (by decide) (by decide) (by decide) (by decide) rfl
    (by decide)
  exact this

/-- C9: the builtin `TIME` physical type is built over an
`i64_min..i64_max` ascending base integer; the primary unit `fs` sits at
index 0 with absolute scale 1 and no relative tuple; the eight units are
`fs, ps, ns, us, ms, sec, min, hr` with `fs=1`, each next unit 1000 (or 60)
times the previous, so `unit[i].abs == unit[i-1].abs * rel[i].scale` (and the
referenced unit index is `i-1`) for every `1 ≤ i < 8`; in particular
`abs(hr) = 3_600_000_000_000_000_000` and `rel(min) = (60, 5)` where 5 is
`sec`'s index. -/
theorem c9_time_units :
    timeTy.base = ⟨.to, -(2 ^ 63), 2 ^ 63 - 1⟩
    ∧ timeTy.primary = 0
    ∧ timeTy.units.length = 8
    ∧ timeTy.units[0]? = some ⟨"fs", 1, none⟩
    ∧ timeTy.units.map PhysicalUnit.name =
        ["fs", "ps", "ns", "us", "ms", "sec", "min", "hr"]
    ∧ ((List.range 8).drop 1).all
        (fun i =>
          match timeTy.units[i]?, timeTy.units[i - 1]? with
          | some u, some v =>
            match u.rel with
            | some (s, j) => decide (u.abs = v.abs * s) && decide (j = i - 1)
            | none => false
          | _, _ => false) = true
    ∧ (timeTy.units[7]?).map PhysicalUnit.abs = some 3600000000000000000
    ∧ (timeTy.units[6]?).bind PhysicalUnit.rel = some (60, 5)
    ∧ (timeTy.units[5]?).map PhysicalUnit.name = some "sec" := by
  decide

/-- C3: primary-name resolution maps identifiers to `Ident` and characters to
`Bit`; the operator table has exactly 34 distinct spellings; every spelling
outside the table fails with the ``...` is not a valid operator symbol``
diagnostic (`UnknownOperator`); every spelling in the table maps to an
operator that resolves in the root scope to a nonempty overload set made
solely of `Def::BuiltinOp` definitions; and `"<="` maps to `Rel(Leq)`, which
resolves in the root scope to exactly one such definition. -/
theorem c3_operator_symbols :
    (∀ (n : Name) (sp : Span),
      resolvableFromPrimaryName ⟨.ident n, sp⟩ = .ok ⟨.ident n, sp⟩)
    ∧ (∀ (c : Char) (sp : Span),
      resolvableFromPrimaryName ⟨.char c, sp⟩ = .ok ⟨.bit c, sp⟩)
    ∧ opTable.length = 34
    ∧ (opTable.map Prod.fst).Nodup
    ∧ (∀ (s : String) (sp : Span), alGet s opTable = none →
        resolvableFromPrimaryName ⟨.string s, sp⟩ =
          .error ("`" ++ s ++ "` is not a valid operator symbol"))
    ∧ (∀ p ∈ opTable, resolvesToBuiltinOps p.2 = true)
    ∧ alGet "<=" opTable = some (.rel .leq)
    ∧ leqResolvesUnique = true := by
  refine ⟨fun n sp => rfl, fun c sp => rfl, by decide, by decide, ?_,
    by decide, by decide, by decide⟩
  intro s sp h
  simp [resolvableFromPrimaryName, h]

/-- C3 witness: the spelling `"<<"` is outside the table and fails with the
operator diagnostic, while the table entry `("<=", Rel(Leq))` resolves in the
root scope to builtin operator definitions only. -/
theorem c3_witness :
    resolvableFromPrimaryName ⟨.string "<<", ""⟩ =
      .error ("`" ++ "<<" ++ "` is not a valid operator symbol")
    ∧ resolvesToBuiltinOps (.rel .leq) = true := by
  refine ⟨c3_operator_symbols.2.2.2.2.1 "<<" "" (by decide), ?_⟩
  exact c3_operator_symbols.2.2.2.2.2.1 ("<=", .rel .leq) (by decide)

/-- C6 counterexample: `register_builtins` has no failure channel at all — in
particular it does not fail with `BuiltinIntegrity` when invoked twice for
the same session: the second invocation is an ordinary call that leaves the
session's tables exactly as after the first invocation. -/
theorem c6_counterexample :
    registerBuiltins (registerBuiltins emptySession) =
      registerBuiltins emptySession := by
  rfl

/-- C6 (amended): `register_builtins(session)` copies the frozen builtin
scope map (the builtin definition maps travel inside the copied scopes) and
the frozen builtin type map into the session's scoreboard tables; it has no
failure path, and invoking it a second time for the same session leaves the
tables unchanged instead of failing with `BuiltinIntegrity`. -/
theorem c6_register_builtins :
    registerBuiltins emptySession =
      ⟨builtinScopes, builtinTypes⟩
    ∧ registerBuiltins (registerBuiltins emptySession) =
        registerBuiltins emptySession
    ∧ alGet rootScopeRefM (registerBuiltins emptySession).scope2_table =
        some rootScopeB
    ∧ alGet timeTypeId (registerBuiltins emptySession).ty_table =
        some (.physical timeTy) := by
  exact ⟨rfl, rfl, rfl, rfl⟩

/-! ## Resolver lemmas -/

theorem collectRefs_eq_refsConcat {gd : ScopeRef → Option Defs}
    {n : ResolvableName} :
    ∀ {ids : List ScopeRef} {fd : List (Spanned Def)},
      collectRefs gd n ids = some fd → fd = refsConcat gd n ids := by
  intro ids
  induction ids with
  | nil =>
    intro fd h
    simp [collectRefs] at h
    simp [refsConcat, ← h]
  | cons id rest ih =>
    intro fd h
    cases hg : gd id with
    | none => rw [collectRefs, hg] at h; simp at h
    | some defs =>
      rw [collectRefs, hg] at h
      cases hc : collectRefs gd n rest with
      | none => rw [hc] at h; simp at h
      | some tail =>
        rw [hc] at h
        simp at h
        subst h
        have ht := ih hc
        simp [refsConcat, hg, ← ht]
        rw [refsConcat] at ht
        rw [← ht]

theorem collectRefs_entry_subset {gd : ScopeRef → Option Defs}
    {n : ResolvableName} :
    ∀ {ids : List ScopeRef} {fd : List (Spanned Def)},
      collectRefs gd n ids = some fd →
      ∀ {i : ScopeRef} {d : Defs}, i ∈ ids → gd i = some d →
        (defsGet d n).getD [] ⊆ fd := by
  intro ids
  induction ids with
  | nil =>
    intro fd h i d hi
    exact absurd hi (List.not_mem_nil i)
  | cons id rest ih =>
    intro fd h i d hi hg
    cases hgid : gd id with
    | none => rw [collectRefs, hgid] at h; simp at h
    | some defs =>
      rw [collectRefs, hgid] at h
      cases hc : collectRefs gd n rest with
      | none => rw [hc] at h; simp at h
      | some tail =>
        rw [hc] at h
        simp at h
        rcases List.mem_cons.mp hi with rfl | hmem2
        · rw [hgid] at hg
          injection hg with hg
          subst hg
          rw [← h]
          exact List.subset_append_left _ _
        · have hsub := ih hc hmem2 hg
          rw [← h]
          exact hsub.trans (List.subset_append_right _ _)

theorem resolveName_false_step (gd : ScopeRef → Option Defs)
    (gs : ScopeRef → Option Scope) (fuel : Nat)
    (name : Spanned ResolvableName) (sid : ScopeRef) (scope : Scope)
    (fd : List (Spanned Def)) (hs : gs sid = some scope)
    (hc : collectRefs gd name.value scope.defs = some fd) :
    resolveName gd gs (fuel + 1) name sid false =
      (if (fd ++ (defsGet scope.explicit_defs name.value).getD []).isEmpty
       then
         match scope.parent with
         | some pid => resolveName gd gs fuel name pid false
         | none => .unknown ("`" ++ name.value.display ++ "` is not known")
       else .ok (fd ++ (defsGet scope.explicit_defs name.value).getD [])) := by
  rw [resolveName]
  simp [hs, hc]

theorem resolveName_false_noScope (gd : ScopeRef → Option Defs)
    (gs : ScopeRef → Option Scope) (fuel : Nat)
    (name : Spanned ResolvableName) (sid : ScopeRef)
    (hs : gs sid = none) :
    resolveName gd gs (fuel + 1) name sid false = .tableFail := by
  rw [resolveName]
  simp [hs]

theorem resolveName_false_noCollect (gd : ScopeRef → Option Defs)
    (gs : ScopeRef → Option Scope) (fuel : Nat)
    (name : Spanned ResolvableName) (sid : ScopeRef) (scope : Scope)
    (hs : gs sid = some scope)
    (hc : collectRefs gd name.value scope.defs = none) :
    resolveName gd gs (fuel + 1) name sid false = .tableFail := by
  rw [resolveName]
  simp [hs, hc]

theorem resolveName_true_step (gd : ScopeRef → Option Defs)
    (gs : ScopeRef → Option Scope) (fuel : Nat)
    (name : Spanned ResolvableName) (sid : ScopeRef) (defs : Defs)
    (hd : gd sid = some defs) :
    resolveName gd gs (fuel + 1) name sid true =
      (if ((defsGet defs name.value).getD []).isEmpty then
         .unknown ("`" ++ name.value.display ++ "` is not known")
       else .ok ((defsGet defs name.value).getD [])) := by
  rw [resolveName]
  simp [hd]

theorem resolveName_true_noDefs (gd : ScopeRef → Option Defs)
    (gs : ScopeRef → Option Scope) (fuel : Nat)
    (name : Spanned ResolvableName) (sid : ScopeRef)
    (hd : gd sid = none) :
    resolveName gd gs (fuel + 1) name sid true = .tableFail := by
  rw [resolveName]
  simp [hd]

/-- C2 counterexample: in a scope whose referenced defs holder yields `defA`
and whose explicit defs yield `defB` for the same name, `resolve_name`
returns `[defA, defB]` — the referenced holders are consulted first and the
explicit defs last, while the claim's explicit-defs-first order would return
`[defB, defA]`. -/
theorem c2_counterexample :
    resolveName gd0 gs0 1 ⟨.ident "n", ""⟩ (.lib ⟨8⟩) false =
      .ok [defA, defB]
    ∧ resolveNameExplicitFirst gd0 gs0 1 ⟨.ident "n", ""⟩ (.lib ⟨8⟩) false =
        .ok [defB, defA]
    ∧ defA ≠ defB := by
  decide

/-- C2 (amended): `resolve_name(N, S, only_defs=false)` collects the matches
for `N` from each referenced `Defs` holder in the order they were appended,
followed by the scope's explicit-defs (explicit-defs consulted last); if the
collection is empty and the scope has a parent it recurses into the parent
with the same flag; if it is empty and there is no parent it emits
``N` is not known`` and fails (`UnknownName`); otherwise it returns the
nonempty collection. -/
theorem c2_resolve_name_order (gd : ScopeRef → Option Defs)
    (gs : ScopeRef → Option Scope) (fuel : Nat)
    (name : Spanned ResolvableName) (sid : ScopeRef) (scope : Scope)
    (fd : List (Spanned Def)) (hs : gs sid = some scope)
    (hc : collectRefs gd name.value scope.defs = some fd) :
    fd = refsConcat gd name.value scope.defs
    ∧ (fd ++ (defsGet scope.explicit_defs name.value).getD [] ≠ [] →
        resolveName gd gs (fuel + 1) name sid false =
          .ok (fd ++ (defsGet scope.explicit_defs name.value).getD []))
    ∧ (fd ++ (defsGet scope.explicit_defs name.value).getD [] = [] →
        ∀ pid, scope.parent = some pid →
          resolveName gd gs (fuel + 1) name sid false =
            resolveName gd gs fuel name pid false)
    ∧ (fd ++ (defsGet scope.explicit_defs name.value).getD [] = [] →
        scope.parent = none →
          resolveName gd gs (fuel + 1) name sid false =
            .unknown ("`" ++ name.value.display ++ "` is not known")) := by
  refine ⟨collectRefs_eq_refsConcat hc, ?_, ?_, ?_⟩
  · intro hne
    rw [resolveName_false_step gd gs fuel name sid scope fd hs hc]
    simp [List.isEmpty_iff, hne]
  · intro he pid hp
    rw [resolveName_false_step gd gs fuel name sid scope fd hs hc]
    simp [List.isEmpty_iff, he, hp]
  · intro he hp
    rw [resolveName_false_step gd gs fuel name sid scope fd hs hc]
    simp [List.isEmpty_iff, he, hp]

/-- C2 witness: in the concrete order scenario the collection is
`[defA] ++ [defB]` and is returned as such; for an undeclared name `m` the
collection is empty, there is no parent, and resolution fails with
``m` is not known``. -/
theorem c2_witness :
    resolveName gd0 gs0 1 ⟨.ident "m", ""⟩ (.lib ⟨8⟩) false =
      .unknown ("`" ++ "m" ++ "` is not known")
    ∧ resolveName gd0 gs0 3 ⟨.ident "n", ""⟩ (.lib ⟨8⟩) false =
        .ok ([defA] ++ [defB]) := by
  constructor
  · have h := c2_resolve_name_order gd0 gs0 0 ⟨.ident "m", ""⟩ (.lib ⟨8⟩)
      scopeC2 [] (by decide) (by decide)
    exact h.2.2.2 (by decide) (by decide)
  · have h := c2_resolve_name_order gd0 gs0 2 ⟨.ident "n", ""⟩ (.lib ⟨8⟩)
      scopeC2 [defA] (by decide) (by decide)
    exact h.2.1 (by decide)

/-- C7: whenever the scope's referenced-defs list contains the scope itself
(as the builtin scopes' do), a successful `resolve_name(N, S, only_defs=true)`
returns a subset of what a successful `resolve_name(N, S, only_defs=false)`
returns. -/
theorem c7_only_defs_subset (gd : ScopeRef → Option Defs)
    (gs : ScopeRef → Option Scope) (f g : Nat)
    (name : Spanned ResolvableName) (sid : ScopeRef) (scope : Scope)
    (l₁ l₂ : List (Spanned Def))
    (hs : gs sid = some scope)
    (hmem : sid ∈ scope.defs)
    (h₁ : resolveName gd gs (f + 1) name sid true = .ok l₁)
    (h₂ : resolveName gd gs (g + 1) name sid false = .ok l₂) :
    l₁ ⊆ l₂ := by
  cases hd : gd sid with
  | none =>
    rw [resolveName_true_noDefs gd gs f name sid hd] at h₁
    exact absurd h₁ (by simp)
  | some defs =>
    rw [resolveName_true_step gd gs f name sid defs hd] at h₁
    by_cases hemp : ((defsGet defs name.value).getD []).isEmpty
    · rw [if_pos hemp] at h₁
      exact absurd h₁ (by simp)
    · rw [if_neg hemp] at h₁
      injection h₁ with h₁
      cases hc : collectRefs gd name.value scope.defs with
      | none =>
        rw [resolveName_false_noCollect gd gs g name sid scope hs hc] at h₂
        exact absurd h₂ (by simp)
      | some fd =>
        have hsub1 : l₁ ⊆ fd := by
          rw [← h₁]
          exact collectRefs_entry_subset hc hmem hd
        have hne : ¬ (fd ++ (defsGet scope.explicit_defs name.value).getD
            []).isEmpty := by
          rw [List.isEmpty_iff]
          intro habs
          have : fd = [] := by
            rcases List.append_eq_nil.mp habs with ⟨hfd, _⟩
            exact hfd
          rw [this] at hsub1
          have : l₁ = [] := List.subset_nil.mp hsub1
          rw [this] at h₁
          rw [List.isEmpty_iff] at hemp
          exact hemp h₁
        rw [resolveName_false_step gd gs g name sid scope fd hs hc,
          if_neg hne] at h₂
        injection h₂ with h₂
        rw [← h₂]
        exact hsub1.trans (List.subset_append_left _ _)

/-- C7 witness: resolving the identifier `STD` in the `STANDARD` package's
scope (whose referenced-defs list contains the scope itself) with
`only_defs=true` yields a subset of the `only_defs=false` result. -/
theorem c7_witness :
    resolveName gd7 gs7 1 ⟨.ident "x", ""⟩ (.lib ⟨7⟩) true = .ok [defA]
    ∧ resolveName gd7 gs7 1 ⟨.ident "x", ""⟩ (.lib ⟨7⟩) false =
        .ok [defA, defB]
    ∧ [defA] ⊆ [defA, defB] := by
  refine ⟨by decide, by decide, ?_⟩
  exact c7_only_defs_subset gd7 gs7 0 0 ⟨.ident "x", ""⟩ (.lib ⟨7⟩)
    scopeC7 [defA] [defA, defB] (by decide) (by decide) (by decide)
    (by decide)

/-! ## Architecture indexer lemmas -/

theorem targetEntity_some_elim {defs : Defs} {ast : ArchRef → ArchBody}
    {a : ArchRef} {e : EntityRef} (h : targetEntity defs ast a = some e) :
    ∃ n es last, simpleTargetName (ast a) = some n
      ∧ defsGet defs (.ident n) = some es
      ∧ es.getLast? = some last
      ∧ last.value = Def.entity e := by
  unfold targetEntity at h
  cases h1 : simpleTargetName (ast a) with
  | none => rw [h1] at h; exact absurd h (by simp)
  | some n =>
    rw [h1] at h
    simp only [Option.some_bind] at h
    cases h2 : defsGet defs (.ident n) with
    | none => rw [h2] at h; exact absurd h (by simp)
    | some es =>
      rw [h2] at h
      simp only [Option.some_bind] at h
      cases h3 : es.getLast? with
      | none => rw [h3] at h; exact absurd h (by simp)
      | some last =>
        rw [h3] at h
        simp only [Option.some_bind] at h
        cases h4 : last.value <;> rw [h4] at h <;>
          first
          | exact Option.noConfusion h
          | (rename_i r
             simp only [Option.some.injEq] at h
             exact ⟨n, es, last, rfl, h2, h3, by rw [h4, h]⟩)

theorem archStep_valid (defs : Defs) (ast : ArchRef → ArchBody)
    (res : ArchTable) (diags : List String) (hf : Bool) (b : ArchRef)
    (eb : EntityRef) (entryb : EntityArchTable)
    (ht : targetEntity defs ast b = some eb)
    (hacc : alGet eb res.by_entity = some entryb) :
    archStep defs ast (res, diags, hf) b =
      some
        ({ by_entity :=
             alInsert eb
               ⟨entryb.ordered ++ [b],
                alInsert (ast b).name.value b entryb.by_name⟩
               res.by_entity
           by_arch := alInsert b eb res.by_arch }, diags, hf) := by
  obtain ⟨n, es, last, h1, h2, h3, h4⟩ := targetEntity_some_elim ht
  unfold archStep
  simp [h1, h2, h3, h4, hacc]

theorem archStep_bad (defs : Defs) (ast : ArchRef → ArchBody)
    (res : ArchTable) (diags : List String) (hf : Bool) (b : ArchRef)
    (msg : String) (h : archFailureMsg defs ast b = some msg) :
    archStep defs ast (res, diags, hf) b =
      some (res, diags ++ [msg], true) := by
  unfold archFailureMsg at h
  unfold archStep
  cases h1 : simpleTargetName (ast b) with
  | none =>
    simp only [h1] at h
    injection h with h
    simp [h1, h]
  | some n =>
    simp only [h1] at h
    cases h2 : defsGet defs (.ident n) with
    | none =>
      simp only [h2] at h
      injection h with h
      simp [h1, h2, h]
    | some es =>
      simp only [h2] at h
      cases h3 : es.getLast? with
      | none =>
        simp only [h3] at h
        exact Option.noConfusion h
      | some last =>
        simp only [h3] at h
        cases h4 : last.value <;> simp only [h4] at h <;>
          first
          | exact Option.noConfusion h
          | (injection h with h; simp [h1, h2, h3, h4, h])

theorem c4fold (defs : Defs) (ast : ArchRef → ArchBody) :
    ∀ (rest : List ArchRef) (acc : ArchTable) (diags : List String)
      (hf : Bool),
    (∀ a ∈ rest, ∃ e, targetEntity defs ast a = some e ∧
        (alGet e acc.by_entity).isSome = true) →
    ∃ res, runArchSteps defs ast (acc, diags, hf) rest = some (res, diags, hf)
      ∧ (∀ e entry, alGet e acc.by_entity = some entry →
          ∃ entry2, alGet e res.by_entity = some entry2
            ∧ entry2.ordered = entry.ordered ++
                rest.filter (fun a => decide (targetEntity defs ast a = some e))
            ∧ ∀ n, alGet n entry2.by_name =
                ((rest.filter
                    (fun a =>
                      decide (targetEntity defs ast a = some e))).reverse.find?
                    (fun a => (ast a).name.value == n)).or
                  (alGet n entry.by_name))
      ∧ (∀ a, alGet a res.by_arch =
          if a ∈ rest then targetEntity defs ast a else alGet a acc.by_arch)
    := by
  intro rest
  induction rest with
  | nil =>
    intro acc diags hf hval
    refine ⟨acc, rfl, fun e entry he => ⟨entry, he, by simp, fun n => by
      simp [Option.none_or]⟩, fun a => by simp⟩
  | cons b rest2 ih =>
    intro acc diags hf hval
    obtain ⟨eb, htb, hpres⟩ := hval b (List.mem_cons_self b rest2)
    obtain ⟨entryb, hentryb⟩ := Option.isSome_iff_exists.mp hpres
    have hstep := archStep_valid defs ast acc diags hf b eb entryb htb hentryb
    have hval2 : ∀ a ∈ rest2, ∃ e, targetEntity defs ast a = some e ∧
        (alGet e
          ({ by_entity :=
               alInsert eb
                 ⟨entryb.ordered ++ [b],
                  alInsert (ast b).name.value b entryb.by_name⟩
                 acc.by_entity
             by_arch := alInsert b eb acc.by_arch } : ArchTable).by_entity
          ).isSome = true := by
      intro a ha
      obtain ⟨e, hte, hpres2⟩ := hval a (List.mem_cons_of_mem b ha)
      refine ⟨e, hte, ?_⟩
      by_cases hee : e = eb
      · subst hee
        simp [alGet_alInsert_self]
      · simpa [alGet_alInsert_ne hee] using hpres2
    obtain ⟨res, hrun, hbe, hba⟩ := ih _ diags hf hval2
    refine ⟨res, ?_, ?_, ?_⟩
    · simp only [runArchSteps, hstep]
      exact hrun
    · intro e entry he
      by_cases hee : e = eb
      · subst hee
        rw [hentryb] at he
        injection he with he
        subst he
        obtain ⟨entry2, h2a, h2b, h2c⟩ := hbe e
          ⟨entryb.ordered ++ [b], alInsert (ast b).name.value b entryb.by_name⟩
          (alGet_alInsert_self ..)
        have hfc : (b :: rest2).filter
            (fun a => decide (targetEntity defs ast a = some e)) =
            b :: rest2.filter
              (fun a => decide (targetEntity defs ast a = some e)) := by
          simp [List.filter_cons, htb]
        refine ⟨entry2, h2a, ?_, ?_⟩
        · rw [h2b, hfc]
          simp [List.append_assoc]
        · intro n
          rw [h2c n, hfc, List.reverse_cons, List.find?_append,
            Option.or_assoc]
          congr 1
          by_cases hn : n = (ast b).name.value
          · subst hn
            rw [alGet_alInsert_self]
            simp [List.find?]
          · rw [alGet_alInsert_ne hn]
            have hb : ((ast b).name.value == n) = false := by
              simp [Ne.symm hn]
            simp [List.find?, hb]
      · have he' : alGet e
            ({ by_entity :=
                 alInsert eb
                   ⟨entryb.ordered ++ [b],
                    alInsert (ast b).name.value b entryb.by_name⟩
                   acc.by_entity
               by_arch := alInsert b eb acc.by_arch } : ArchTable).by_entity
            = some entry := by
          simpa [alGet_alInsert_ne hee] using he
        obtain ⟨entry2, h2a, h2b, h2c⟩ := hbe e entry he'
        have hfc : (b :: rest2).filter
            (fun a => decide (targetEntity defs ast a = some e)) =
            rest2.filter
              (fun a => decide (targetEntity defs ast a = some e)) := by
          simp [List.filter_cons, htb, Ne.symm hee]
        refine ⟨entry2, h2a, ?_, ?_⟩
        · rw [h2b, hfc]
        · intro n
          rw [h2c n, hfc]
    · intro a
      rw [hba a]
      by_cases hmem : a ∈ rest2
      · simp [hmem, List.mem_cons]
      · by_cases hab : a = b
        · subst hab
          simp [hmem, alGet_alInsert_self, htb, List.mem_cons]
        · simp [hmem, hab, alGet_alInsert_ne hab, List.mem_cons]

theorem alGet_init (entities : List EntityRef) (e : EntityRef) :
    alGet e (entities.map fun x => (x, (⟨[], []⟩ : EntityArchTable))) =
      if e ∈ entities then some ⟨[], []⟩ else none := by
  induction entities with
  | nil => simp [alGet]
  | cons x rest ih =>
    by_cases hx : e = x
    · subst hx
      simp [alGet, List.mem_cons]
    · simp [alGet, hx, ih, List.mem_cons]

/-- C4 (amended): for every library whose architectures all target valid
entities (the last matching def for the target identifier is an entity of the
library's HIR — the shadowing rule embodied by `targetEntity`), the indexer
succeeds with no diagnostics; `by_entity` has an entry for every entity
(empty when no architecture targets it) whose `ordered` list is exactly the
library's architectures targeting it in source order; provided no two
architectures sharing a target entity share a name, each architecture appears
in `by_name` under its own name; and `by_arch` maps each architecture back to
its target entity. -/
theorem c4_arch_table (lib : LibHir) (defs : Defs) (ast : ArchRef → ArchBody)
    (hval : ∀ a ∈ lib.archs, ∃ e, targetEntity defs ast a = some e ∧
        e ∈ lib.entities)
    (hnames : ∀ a ∈ lib.archs, ∀ b ∈ lib.archs,
        targetEntity defs ast a = targetEntity defs ast b →
        (ast a).name.value = (ast b).name.value → a = b) :
    ∃ t, makeArchTable lib defs ast = some ([], .ok t)
      ∧ (∀ e ∈ lib.entities, ∃ entry, alGet e t.by_entity = some entry
          ∧ entry.ordered =
              lib.archs.filter
                (fun a => decide (targetEntity defs ast a = some e))
          ∧ (∀ a ∈ lib.archs, targetEntity defs ast a = some e →
              alGet (ast a).name.value entry.by_name = some a))
      ∧ (∀ a ∈ lib.archs, alGet a t.by_arch = targetEntity defs ast a) := by
  have hval' : ∀ a ∈ lib.archs, ∃ e, targetEntity defs ast a = some e ∧
      (alGet e (initArchTable lib).by_entity).isSome = true := by
    intro a ha
    obtain ⟨e, hte, hmem⟩ := hval a ha
    exact ⟨e, hte, by simp [initArchTable, alGet_init, hmem]⟩
  obtain ⟨res, hrun, hbe, hba⟩ :=
    c4fold defs ast lib.archs (initArchTable lib) [] false hval'
  refine ⟨res, ?_, ?_, ?_⟩
  · simp [makeArchTable, hrun]
  · intro e he
    obtain ⟨entry2, h2a, h2b, h2c⟩ := hbe e ⟨[], []⟩
      (by simp [initArchTable, alGet_init, he])
    refine ⟨entry2, h2a, by simpa using h2b, ?_⟩
    intro a ha hta
    rw [h2c]
    have hafilter : a ∈ (lib.archs.filter
        (fun x => decide (targetEntity defs ast x = some e))).reverse := by
      simp [List.mem_reverse, List.mem_filter, ha, hta]
    have hsome : ((lib.archs.filter
        (fun x => decide (targetEntity defs ast x = some e))).reverse.find?
        (fun x => (ast x).name.value == (ast a).name.value)).isSome := by
      rw [List.find?_isSome]
      exact ⟨a, hafilter, by simp⟩
    obtain ⟨x, hx⟩ := Option.isSome_iff_exists.mp hsome
    have hxp := List.find?_some hx
    have hxmem := List.mem_of_find?_eq_some hx
    rw [List.mem_reverse] at hxmem
    obtain ⟨hxlib, hxtgt⟩ := List.mem_filter.mp hxmem
    have hxtgt' : targetEntity defs ast x = some e := of_decide_eq_true hxtgt
    have hxa : x = a := by
      refine hnames x hxlib a ha ?_ ?_
      · rw [hxtgt', hta]
      · simpa using hxp
    rw [hx, hxa]
    rfl
  · intro a ha
    rw [hba a]
    simp [ha]

/-- C4 counterexample: with two architectures of the same entity both named
`a`, the indexer succeeds but `by_name` keeps only the later one — the first
architecture does not appear in `by_name` under its own name, refuting the
claim's unconditional `by_name` clause. -/
theorem c4_counterexample :
    makeArchTable libC4 defsC4 astC4 =
      some ([], .ok ⟨[(archA1, entX), (archA2, entX)],
        [(entX, ⟨[archA1, archA2], [("a", archA2)]⟩)]⟩)
    ∧ (astC4 archA1).name.value = "a"
    ∧ targetEntity defsC4 astC4 archA1 = some entX
    ∧ alGet "a"
        (⟨[archA1, archA2], [("a", archA2)]⟩ : EntityArchTable).by_name =
        some archA2
    ∧ archA2 ≠ archA1 := by
  exact ⟨rfl, rfl, rfl, rfl, by decide⟩

/-- C4 witness: a library with one entity and one architecture `a` targeting
it satisfies the validity and distinct-name hypotheses; the indexer returns
the expected grouping. -/
theorem c4_witness :
    ∃ t, makeArchTable libC4w defsC4 astC4 = some ([], .ok t)
      ∧ (∃ entry, alGet entX t.by_entity = some entry
          ∧ entry.ordered = [archA1]
          ∧ alGet "a" entry.by_name = some archA1)
      ∧ alGet archA1 t.by_arch = some entX := by
  obtain ⟨t, h1, h2, h3⟩ := c4_arch_table libC4w defsC4 astC4
    (by decide) (by decide)
  obtain ⟨entry, he1, he2, he3⟩ := h2 entX (by decide)
  refine ⟨t, h1, ⟨entry, he1, ?_, ?_⟩, ?_⟩
  · rw [he2]
    decide
  · have := he3 archA1 (by decide) (by decide)
    simpa using this
  · have := h3 archA1 (by decide)
    rw [this]
    decide

theorem c5fold (defs : Defs) (ast : ArchRef → ArchBody) :
    ∀ (rest : List ArchRef) (acc : ArchTable) (diags : List String)
      (hf : Bool),
    (∀ a ∈ rest, archFailureMsg defs ast a = none →
        ∃ e, targetEntity defs ast a = some e ∧
          (alGet e acc.by_entity).isSome = true) →
    ∃ res hf2, runArchSteps defs ast (acc, diags, hf) rest =
        some (res, diags ++ rest.filterMap (archFailureMsg defs ast), hf2)
      ∧ hf2 = (hf || rest.any
          (fun a => (archFailureMsg defs ast a).isSome)) := by
  intro rest
  induction rest with
  | nil =>
    intro acc diags hf hgood
    exact ⟨acc, hf, by simp [runArchSteps], by simp⟩
  | cons b rest2 ih =>
    intro acc diags hf hgood
    cases hmsg : archFailureMsg defs ast b with
    | some msg =>
      have hstep := archStep_bad defs ast acc diags hf b msg hmsg
      have hgood2 : ∀ a ∈ rest2, archFailureMsg defs ast a = none →
          ∃ e, targetEntity defs ast a = some e ∧
            (alGet e acc.by_entity).isSome = true :=
        fun a ha h => hgood a (List.mem_cons_of_mem b ha) h
      obtain ⟨res, hf2, hrun, hhf⟩ := ih acc (diags ++ [msg]) true hgood2
      refine ⟨res, hf2, ?_, ?_⟩
      · simp only [runArchSteps, hstep]
        rw [hrun]
        simp [List.filterMap_cons, hmsg, List.append_assoc]
      · rw [hhf]
        simp [List.any_cons, hmsg]
    | none =>
      obtain ⟨e, hte, hpres⟩ := hgood b (List.mem_cons_self b rest2) hmsg
      obtain ⟨entryb, hentryb⟩ := Option.isSome_iff_exists.mp hpres
      have hstep := archStep_valid defs ast acc diags hf b e entryb hte
        hentryb
      have hgood2 : ∀ a ∈ rest2, archFailureMsg defs ast a = none →
          ∃ e2, targetEntity defs ast a = some e2 ∧
            (alGet e2
              ({ by_entity :=
                   alInsert e
                     ⟨entryb.ordered ++ [b],
                      alInsert (ast b).name.value b entryb.by_name⟩
                     acc.by_entity
                 by_arch := alInsert b e acc.by_arch } : ArchTable).by_entity
              ).isSome = true := by
        intro a ha h
        obtain ⟨e2, hte2, hpres2⟩ := hgood a (List.mem_cons_of_mem b ha) h
        refine ⟨e2, hte2, ?_⟩
        by_cases hee : e2 = e
        · subst hee
          simp [alGet_alInsert_self]
        · simpa [alGet_alInsert_ne hee] using hpres2
      obtain ⟨res, hf2, hrun, hhf⟩ := ih _ diags hf hgood2
      refine ⟨res, hf2, ?_, ?_⟩
      · simp only [runArchSteps, hstep]
        rw [hrun]
        simp [List.filterMap_cons, hmsg]
      · rw [hhf]
        simp [List.any_cons, hmsg]

/-- C5: if any architecture in a library has a bad target (not a simple
identifier, unknown, or not an entity — `archFailureMsg` carries the three
diagnostics exactly as the code emits them), and the well-targeted
architectures are valid, the indexer emits the diagnostic of every bad
architecture in source order (it keeps examining the remaining
architectures), returns a single failure with no partial table, and the
`archs` accessor caches nothing — the memo table is left unchanged. -/
theorem c5_arch_failures (lib : LibHir) (defs : Defs)
    (ast : ArchRef → ArchBody)
    (hbad : lib.archs.any
        (fun a => (archFailureMsg defs ast a).isSome) = true)
    (hgood : ∀ a ∈ lib.archs, archFailureMsg defs ast a = none →
        ∃ e, targetEntity defs ast a = some e ∧ e ∈ lib.entities) :
    makeArchTable lib defs ast =
      some (lib.archs.filterMap (archFailureMsg defs ast), .error ())
    ∧ (∀ (k : LibRef) (st : MemoSt LibRef ArchTable),
        alGet k st.table = none →
        getMemo (archMake lib defs ast) k st =
          (⟨st.table,
            st.diags ++ lib.archs.filterMap (archFailureMsg defs ast)⟩,
           .err))
    ∧ (∀ a, simpleTargetName (ast a) = none →
        archFailureMsg defs ast a =
          some ("`" ++ (ast a).target.primary.span ++
            "` is not a valid entity name"))
    ∧ (∀ a n, simpleTargetName (ast a) = some n →
        defsGet defs (.ident n) = none →
        archFailureMsg defs ast a = some ("Unknown entity `" ++ n ++ "`"))
    ∧ (∀ a n es last, simpleTargetName (ast a) = some n →
        defsGet defs (.ident n) = some es → es.getLast? = some last →
        (∀ e, last.value ≠ Def.entity e) →
        archFailureMsg defs ast a =
          some ("`" ++ n ++ "` is not an entity")) := by
  have hgood' : ∀ a ∈ lib.archs, archFailureMsg defs ast a = none →
      ∃ e, targetEntity defs ast a = some e ∧
        (alGet e (initArchTable lib).by_entity).isSome = true := by
    intro a ha h
    obtain ⟨e, hte, hmem⟩ := hgood a ha h
    exact ⟨e, hte, by simp [initArchTable, alGet_init, hmem]⟩
  obtain ⟨res, hf2, hrun, hhf⟩ :=
    c5fold defs ast lib.archs (initArchTable lib) [] false hgood'
  have hmain : makeArchTable lib defs ast =
      some (lib.archs.filterMap (archFailureMsg defs ast), .error ()) := by
    rw [hhf, hbad] at hrun
    simp only [makeArchTable, hrun]
    simp
  refine ⟨hmain, ?_, ?_, ?_, ?_⟩
  · intro k st hk
    unfold getMemo
    rw [hk]
    unfold archMake
    rw [hmain]
  · intro a h1
    unfold archFailureMsg
    simp [h1]
  · intro a n h1 h2
    unfold archFailureMsg
    simp [h1, h2]
  · intro a n es last h1 h2 h3 hne
    cases hv : last.value <;>
      first
      | exact absurd hv (hne _)
      | (unfold archFailureMsg
         simp [h1, h2, h3, hv])

/-- C5 witness: the library whose only architecture targets the undeclared
identifier `missing` fails with the single diagnostic
``Unknown entity `missing``` and the `archs` accessor caches nothing. -/
theorem c5_witness :
    makeArchTable libC5 defsC5 astC5 =
      some (["Unknown entity `missing`"], .error ())
    ∧ getMemo (archMake libC5 defsC5 astC5) (⟨1⟩ : LibRef)
        ⟨[], []⟩ = (⟨[], ["Unknown entity `missing`"]⟩, .err) := by
  have h := c5_arch_failures libC5 defsC5 astC5 (by decide) (by decide)
  constructor
  · rw [h.1]
    rfl
  · have h2 := h.2.1 ⟨1⟩ ⟨[], []⟩ (by decide)
    rw [h2]
    rfl

end Moore
